import Mathlib

/-!
Shallow embedding of the products CRUD service
(`src/app/models/products.py` and `src/app/endpoints/products.py`).

Modelling conventions:
* JSON payload values are modelled by `JValue`; lists appearing in payloads
  (the `categories` key) carry strings, which covers every payload the
  claims quantify over.  Numbers are modelled by `Int` (the `rating` column
  is a SQL `Float`; no claim depends on non-integral values).
* Python exceptions become the `PyError` type; the exception *kind* is what
  the endpoint layer dispatches on, so messages are not modelled.
* The database session/commit pair becomes explicit state passing on
  `Store`; an operation that raises before `commit` leaves the store as it
  was, mirroring transactional rollback.
* SQLAlchemy `@validates` hooks fire on every attribute assignment, both in
  the model constructor (`cls(**values)`) and in `setattr`; `initField` and
  `applyField` embed the two assignment paths.
* Values that SQLite/SQLAlchemy would reject at bind time (a non-integer
  `brand_id` or `id`) are rejected with `typeError` at assignment time in
  the model; both behaviours make the enclosing operation fail without
  committing, which is the only fact the claims depend on.
-/

namespace ProductsApp

/-- A JSON value as delivered by `request.json`.  Lists carry category
names (strings), matching every payload shape the API consumes. -/
inductive JValue where
  | null : JValue
  | bool (b : Bool) : JValue
  | int (n : Int) : JValue
  | str (s : String) : JValue
  | list (xs : List String) : JValue
deriving DecidableEq, Repr

instance : BEq JValue := ⟨fun a b => decide (a = b)⟩

@[simp] theorem JValue.beq_def (a b : JValue) : (a == b) = decide (a = b) := rfl

/-- Python truthiness of a JSON value (`if brand_name:`, `if not values.get(...)`). -/
def JValue.truthy : JValue → Bool
  | .null => false
  | .bool b => b
  | .int n => n != 0
  | .str s => s != ""
  | .list xs => !xs.isEmpty

/-- Exception kinds the service can raise; the endpoint layer dispatches on
the kind (`NoResultFound` vs everything else). -/
inductive PyError where
  | invalidPayload : PyError
  | valueError : PyError
  | typeError : PyError
  | attributeError : PyError
  | noResultFound : PyError
  | multipleResultsFound : PyError
  | integrityError : PyError
deriving DecidableEq, Repr

/-- A row of the `brands` table. -/
structure Brand where
  id : Int
  name : String
  country_code : String
deriving DecidableEq, Repr

/-- A row of the `categories` table. -/
structure Category where
  id : Int
  name : String
deriving DecidableEq, Repr

/-- A persisted row of the `products` table, together with its
`products_categories` association rows (the categories relationship). -/
structure Product where
  id : Int
  name : String
  rating : Int
  featured : Bool
  items_in_stock : Int
  brand_id : Int
  categories : List Category
  created_at : JValue
  expiration_date : JValue
  receipt_date : JValue
deriving DecidableEq, Repr

/-- The relational store: the three tables (the join table lives inside
each product record). -/
structure Store where
  products : List Product
  brands : List Brand
  categories : List Category
deriving DecidableEq, Repr

/-- The column names of the `products` table (`cls.__table__.columns`). -/
def productColumns : List String :=
  ["id", "name", "rating", "featured", "created_at", "expiration_date",
   "brand_id", "items_in_stock", "receipt_date"]

/-- Models the Python dict read `d.get(k, None)` on an association list. -/
def dictGet (d : List (String × JValue)) (k : String) : Option JValue :=
  (d.find? (fun kv => kv.1 == k)).map (·.2)

/-- Models Python dict assignment of key k to value v: overwrite in place
if the key exists (keeping insertion order), otherwise append. -/
def dictSet (d : List (String × JValue)) (k : String) (v : JValue) :
    List (String × JValue) :=
  if d.any (fun kv => kv.1 == k) then
    d.map (fun kv => if kv.1 == k then (k, v) else kv)
  else
    d ++ [(k, v)]

/-- Key deduplication of a Python dict comprehension: keep the first
occurrence of each key, in order. -/
def pyDedupAux (seen : List String) : List String → List String
  | [] => []
  | x :: xs =>
    if x ∈ seen then pyDedupAux seen xs
    else x :: pyDedupAux (x :: seen) xs

def pyDedup (l : List String) : List String := pyDedupAux [] l

/-- The payload of a request: a JSON object (Python dict). -/
abbrev Payload := List (String × JValue)

/-- Embeds the validates hook on the name column: the source raises
ValueError when `name_len < 0 or 50 < name_len`.  The lower-bound
comparison is kept exactly as written (it is on a natural-number length,
so it can never fire).  A non-string value makes `len(name)` raise
TypeError. -/
def Product.validate_name (v : JValue) : Except PyError String :=
  match v with
  | .str name =>
    let name_len := name.length
    if name_len < 0 ∨ 50 < name_len then .error .valueError else .ok name
  | _ => .error .typeError

/-- Embeds the validates hook on the featured column: the source raises
ValueError when `not isinstance(featured, bool)`. -/
def Product.validate_featured (v : JValue) : Except PyError Bool :=
  match v with
  | .bool b => .ok b
  | _ => .error .valueError

/-- Embeds the validates hook on the rating column: the source raises
ValueError when `rating < 0`.  Python bool is an int (True compares as 1,
False as 0), so booleans pass the check; comparing any other type against
zero raises TypeError. -/
def Product.validate_rating (v : JValue) : Except PyError Int :=
  match v with
  | .int r => if r < 0 then .error .valueError else .ok r
  | .bool b => .ok (if b then 1 else 0)
  | _ => .error .typeError

/-- Embeds the validates hook on the items_in_stock column: the source
raises ValueError when `items_in_stock < 0`. -/
def Product.validate_items_in_stock (v : JValue) : Except PyError Int :=
  match v with
  | .int n => if n < 0 then .error .valueError else .ok n
  | .bool b => .ok (if b then 1 else 0)
  | _ => .error .typeError

/-- The value of the categories payload key as the sequence the source
loop `for name in payload.get(..., [])` iterates over: an absent key
defaults to the empty list, a list yields its elements, a string yields
its characters, and every other JSON value is not iterable (TypeError). -/
def categoryNames (payload : Payload) : Except PyError (List String) :=
  match dictGet payload "categories" with
  | none => .ok []
  | some (.list xs) => .ok xs
  | some (.str t) => .ok (t.toList.map (fun c => String.mk [c]))
  | some _ => .error .typeError

/-- Resolve each category name by `query(Category).filter_by(name=name).first()`,
raising `InvalidPayload` at the first name with no match (the `for name,
category in categories.items()` check). -/
def resolveCategories (s : Store) : List String → Except PyError (List Category)
  | [] => .ok []
  | n :: rest =>
    match s.categories.find? (fun c => c.name == n) with
    | none => .error .invalidPayload
    | some c =>
      match resolveCategories s rest with
      | .error e => .error e
      | .ok cs => .ok (c :: cs)

/-- The result of `Product.prepare_values`: the filtered/augmented column
dict, with the resolved `categories` entry held apart (it is the only
non-column entry the source ever puts into `values`). -/
structure Values where
  cols : List (String × JValue)
  cats : Option (List Category)
deriving DecidableEq, Repr

/-- The brand-resolution step of `prepare_values`: a truthy brand name is
looked up by `query(Brand).filter_by(name=brand_name).first()`; no match
raises `InvalidPayload`, a match overwrites `brand_id` in the value dict.
A falsy brand value (absent key, empty string, and so on) skips the lookup
entirely. -/
def brandStep (s : Store) (payload : Payload) (values : List (String × JValue)) :
    Except PyError (List (String × JValue)) :=
  match dictGet payload "brand" with
  | some bv =>
    if bv.truthy then
      match s.brands.find? (fun b => bv == JValue.str b.name) with
      | none => .error .invalidPayload
      | some b => .ok (dictSet values "brand_id" (.int b.id))
    else .ok values
  | none => .ok values

/-- Embeds `Product.prepare_values`: filter the payload down to known columns,
resolve a truthy `brand` name to `brand_id`, resolve the `categories`
names, and record the resolved list only when the name dict is non-empty
(`if categories:`). -/
def Product.prepare_values (s : Store) (payload : Payload) : Except PyError Values :=
  match brandStep s payload (payload.filter (fun kv => productColumns.contains kv.1)) with
  | .error e => .error e
  | .ok values =>
    match categoryNames payload with
    | .error e => .error e
    | .ok names =>
      match resolveCategories s (pyDedup names) with
      | .error e => .error e
      | .ok resolved =>
        .ok { cols := values
              cats := if resolved.isEmpty then none else some resolved }

/-- A `Product` instance under construction by `cls(**values)`: every
column starts unset and is assigned field by field. -/
structure ProductObj where
  id : Option Int := none
  name : Option String := none
  rating : Option Int := none
  featured : Option Bool := none
  items_in_stock : Option Int := none
  brand_id : Option Int := none
  categories : List Category := []
  created_at : Option JValue := none
  expiration_date : Option JValue := none
  receipt_date : Option JValue := none
deriving DecidableEq, Repr

def ProductObj.empty : ProductObj := {}

/-- One keyword-argument assignment in `cls(**values)`: the `@validates`
hook of the column runs on the assigned value. -/
def initField (o : ProductObj) (k : String) (v : JValue) : Except PyError ProductObj :=
  if k = "name" then
    match Product.validate_name v with
    | .error e => .error e
    | .ok n => .ok { o with name := some n }
  else if k = "featured" then
    match Product.validate_featured v with
    | .error e => .error e
    | .ok b => .ok { o with featured := some b }
  else if k = "rating" then
    match Product.validate_rating v with
    | .error e => .error e
    | .ok r => .ok { o with rating := some r }
  else if k = "items_in_stock" then
    match Product.validate_items_in_stock v with
    | .error e => .error e
    | .ok n => .ok { o with items_in_stock := some n }
  else if k = "id" then
    match v with
    | .int n => .ok { o with id := some n }
    | _ => .error .typeError
  else if k = "brand_id" then
    match v with
    | .int n => .ok { o with brand_id := some n }
    | _ => .error .typeError
  else if k = "created_at" then .ok { o with created_at := some v }
  else if k = "expiration_date" then .ok { o with expiration_date := some v }
  else if k = "receipt_date" then .ok { o with receipt_date := some v }
  else .ok o

/-- Embeds `setattr(obj, k, v)` on a persisted product during `update`; the same
`@validates` hooks run. -/
def applyField (p : Product) (k : String) (v : JValue) : Except PyError Product :=
  if k = "name" then
    match Product.validate_name v with
    | .error e => .error e
    | .ok n => .ok { p with name := n }
  else if k = "featured" then
    match Product.validate_featured v with
    | .error e => .error e
    | .ok b => .ok { p with featured := b }
  else if k = "rating" then
    match Product.validate_rating v with
    | .error e => .error e
    | .ok r => .ok { p with rating := r }
  else if k = "items_in_stock" then
    match Product.validate_items_in_stock v with
    | .error e => .error e
    | .ok n => .ok { p with items_in_stock := n }
  else if k = "id" then
    match v with
    | .int n => .ok { p with id := n }
    | _ => .error .typeError
  else if k = "brand_id" then
    match v with
    | .int n => .ok { p with brand_id := n }
    | _ => .error .typeError
  else if k = "created_at" then .ok { p with created_at := v }
  else if k = "expiration_date" then .ok { p with expiration_date := v }
  else if k = "receipt_date" then .ok { p with receipt_date := v }
  else .ok p

/-- The keyword-argument loop of `cls(**values)`: assign each entry of the
value dict in order, stopping at the first validation failure. -/
def initFields (o : ProductObj) : List (String × JValue) → Except PyError ProductObj
  | [] => .ok o
  | kv :: rest =>
    match initField o kv.1 kv.2 with
    | .error e => .error e
    | .ok o2 => initFields o2 rest

/-- The `for k, v in values.items(): setattr(obj, k, v)` loop of `update`,
stopping at the first validation failure. -/
def applyFields (p : Product) : List (String × JValue) → Except PyError Product
  | [] => .ok p
  | kv :: rest =>
    match applyField p kv.1 kv.2 with
    | .error e => .error e
    | .ok q => applyFields q rest

/-- The primary key the autoincrement column assigns at INSERT: one past
the largest existing id. -/
def freshId (s : Store) : Int :=
  1 + s.products.foldr (fun p m => max p.id m) 0

/-- The primary key an INSERT assigns: the autoincrement value when the
object carries none, otherwise the explicit one, rejected on collision
with an existing row. -/
def newId (s : Store) (o : ProductObj) : Except PyError Int :=
  match o.id with
  | none => .ok (freshId s)
  | some n =>
    if s.products.any (fun p => p.id == n) then .error .integrityError
    else .ok n

/-- The `created_at` value an INSERT stores: the column default
`datetime.utcnow` (passed in as `now`) when unset, the explicit value
otherwise; an explicit NULL violates the NOT NULL constraint. -/
def createdAtValue (now : JValue) (o : ProductObj) : Except PyError JValue :=
  match o.created_at with
  | none => .ok now
  | some .null => .error .integrityError
  | some v => .ok v

/-- Embeds `db.session.add(obj)` followed by commit for a new product: apply
column defaults (`featured = False`, `created_at = utcnow`), enforce the
primary-key and NOT NULL constraints, and insert the row.  `now` stands for
the wall-clock value `datetime.utcnow` produces. -/
def insertProduct (now : JValue) (s : Store) (o : ProductObj) :
    Except PyError (Store × Product) :=
  match newId s o with
  | .error e => .error e
  | .ok pid =>
  match o.name with
  | none => .error .integrityError
  | some name =>
  match o.rating with
  | none => .error .integrityError
  | some rating =>
  match o.items_in_stock with
  | none => .error .integrityError
  | some items =>
  match o.brand_id with
  | none => .error .integrityError
  | some brand_id =>
  match createdAtValue now o with
  | .error e => .error e
  | .ok created_at =>
    let p : Product :=
      { id := pid, name := name, rating := rating
        featured := o.featured.getD false
        items_in_stock := items, brand_id := brand_id
        categories := o.categories, created_at := created_at
        expiration_date := o.expiration_date.getD .null
        receipt_date := o.receipt_date.getD .null }
    .ok ({ s with products := s.products ++ [p] }, p)

/-- Embeds the commit after mutating the product whose primary key was
`oldId`: reject a primary-key collision, otherwise write the row back. -/
def commitUpdate (s : Store) (oldId : Int) (p : Product) : Except PyError Store :=
  if p.id ≠ oldId ∧ s.products.any (fun q => q.id == p.id) then .error .integrityError
  else .ok { s with products := s.products.map (fun q => if q.id == oldId then p else q) }

/-- Embeds the classmethod `Product.create`. -/
def Product.create (now : JValue) (s : Store) (payload : Payload) :
    Except PyError (Store × Product) :=
  match Product.prepare_values s payload with
  | .error e => .error e
  | .ok values =>
    if (dictGet values.cols "brand_id").elim true (fun bv => !bv.truthy) then
      .error .invalidPayload
    else if values.cats.elim true List.isEmpty then
      .error .invalidPayload
    else
      match initFields ProductObj.empty values.cols with
      | .error e => .error e
      | .ok obj =>
        insertProduct now s { obj with categories := values.cats.getD [] }

/-- Embeds the classmethod `Product.update`.  `query(Product).get(id)` returns `None` when the row
is absent; a subsequent `setattr` on `None` raises `AttributeError`, while
an empty update set commits nothing and hands `None` back to the caller. -/
def Product.update (s : Store) (id : Int) (payload : Payload) :
    Except PyError (Store × Option Product) :=
  match Product.prepare_values s payload with
  | .error e => .error e
  | .ok values =>
    match s.products.find? (fun p => p.id == id) with
    | none =>
      if values.cols = [] ∧ values.cats = none then .ok (s, none)
      else .error .attributeError
    | some p =>
      match applyFields p values.cols with
      | .error e => .error e
      | .ok p1 =>
        let p2 := match values.cats with
                  | some cs => { p1 with categories := cs }
                  | none => p1
        match commitUpdate s id p2 with
        | .error e => .error e
        | .ok s1 => .ok (s1, some p2)

/-- Embeds the classmethod `Product.delete`: `query(Product).get(id)`,
delete the row only when it exists, never signalling absence. -/
def Product.delete (s : Store) (id : Int) : Store :=
  match s.products.find? (fun p => p.id == id) with
  | some _ => { s with products := s.products.filter (fun p => !(p.id == id)) }
  | none => s

/-- Embeds the classmethod `Product.retrieve`: `filter_by(id=id).one()`,
which yields exactly one row or raises an orm exception. -/
def Product.retrieve (s : Store) (id : Int) : Except PyError Product :=
  match s.products.filter (fun p => p.id == id) with
  | [] => .error .noResultFound
  | [p] => .ok p
  | _ => .error .multipleResultsFound

/-- The mapping produced by `Brand.serialized`. -/
structure SerializedBrand where
  id : Int
  name : String
  country_code : String
deriving DecidableEq, Repr

def Brand.serialized (b : Brand) : SerializedBrand :=
  { id := b.id, name := b.name, country_code := b.country_code }

/-- The mapping produced by `Category.serialized`. -/
structure SerializedCategory where
  id : Int
  name : String
deriving DecidableEq, Repr

def Category.serialized (c : Category) : SerializedCategory :=
  { id := c.id, name := c.name }

/-- The mapping produced by `Product.serialized`. -/
structure SerializedProduct where
  id : Int
  name : String
  rating : Int
  featured : Bool
  items_in_stock : Int
  receipt_date : JValue
  brand : SerializedBrand
  categories : List SerializedCategory
  expiration_date : JValue
  created_at : JValue
deriving DecidableEq, Repr

/-- Embeds `Product.serialized`: the `self.brand` relationship loads the brand row
referenced by `brand_id`; with a dangling reference the attribute is `None`
and `.serialized` raises `AttributeError`, modelled as `none`. -/
def Product.serialized (s : Store) (p : Product) : Option SerializedProduct :=
  (s.brands.find? (fun b => b.id == p.brand_id)).map (fun b =>
    { id := p.id, name := p.name, rating := p.rating, featured := p.featured
      items_in_stock := p.items_in_stock, receipt_date := p.receipt_date
      brand := Brand.serialized b
      categories := p.categories.map Category.serialized
      expiration_date := p.expiration_date, created_at := p.created_at })

/-- Endpoint POST of the products resource: any exception collapses to a
410 response; the
response hands back the HTTP status and the store after the request. -/
def create_product (now : JValue) (s : Store) (payload : Payload) : Nat × Store :=
  match Product.create now s payload with
  | .ok (s1, p) =>
    match Product.serialized s1 p with
    | some _ => (201, s1)
    | none => (410, s1)
  | .error _ => (410, s)

/-- Endpoint PUT of a single product: NoResultFound maps to 404, every other
exception to 410; serializing the `None` returned for an empty update of a
missing row raises inside the handler, hence 410. -/
def update_product (s : Store) (id : Int) (payload : Payload) : Nat × Store :=
  match Product.update s id payload with
  | .ok (s1, some p) =>
    match Product.serialized s1 p with
    | some _ => (200, s1)
    | none => (410, s1)
  | .ok (s1, none) => (410, s1)
  | .error .noResultFound => (404, s)
  | .error _ => (410, s)

/-- Endpoint GET of a single product: NoResultFound maps to 404,
everything else to 410. -/
def get_product (s : Store) (id : Int) : Nat × Store :=
  match Product.retrieve s id with
  | .ok p =>
    match Product.serialized s p with
    | some _ => (200, s)
    | none => (410, s)
  | .error .noResultFound => (404, s)
  | .error _ => (410, s)

/-- Endpoint GET of the whole collection: the handler has no try/except,
so a serialization
failure propagates as a generic 500; the store is never modified. -/
def get_products (s : Store) : Nat × Store :=
  if s.products.all (fun p => (Product.serialized s p).isSome) then (200, s)
  else (500, s)

/-- Endpoint DELETE of a single product: always 204 (the modelled delete
cannot raise). -/
def delete_product (s : Store) (id : Int) : Nat × Store :=
  (204, Product.delete s id)

/-! ## Concrete fixtures used by counterexamples and witnesses -/

/-- A category row used by the concrete scenarios. -/
def cat1 : Category := ⟨1, "food"⟩

/-- A brand row used by the concrete scenarios. -/
def brand1 : Brand := ⟨1, "acme", "US"⟩

/-- A stored product referencing `brand1` and `cat1`. -/
def p1 : Product :=
  { id := 1, name := "p", rating := 1, featured := false, items_in_stock := 1
    brand_id := 1, categories := [cat1], created_at := .null
    expiration_date := .null, receipt_date := .null }

/-- A store holding one product. -/
def storeOne : Store := ⟨[p1], [brand1], [cat1]⟩

/-- A store with the reference data but no products. -/
def storeEmpty : Store := ⟨[], [brand1], [cat1]⟩

/-- A store with one category and no brands at all. -/
def storeNoBrands : Store := ⟨[], [], [cat1]⟩

/-- A creation payload whose brand key is the empty string (which matches
no stored brand) and which also carries a literal brand_id column. -/
def payloadBlankBrand : Payload :=
  [("brand", JValue.str ""), ("brand_id", JValue.int 1), ("name", JValue.str "n"),
   ("rating", JValue.int 5), ("items_in_stock", JValue.int 3),
   ("categories", JValue.list ["food"])]

/-- The product record that creating from `payloadBlankBrand` stores. -/
def pBlank : Product :=
  { id := 1, name := "n", rating := 5, featured := false, items_in_stock := 3
    brand_id := 1, categories := [cat1], created_at := .int 0
    expiration_date := .null, receipt_date := .null }

/-- A creation payload carrying a literal brand_id with no brand key. -/
def payloadRawBrandId : Payload :=
  [("brand_id", JValue.int 7), ("name", JValue.str "n"), ("rating", JValue.int 0),
   ("items_in_stock", JValue.int 0), ("categories", JValue.list ["food"])]

/-- The record created from `payloadRawBrandId` in `storeNoBrands`. -/
def pRaw : Product :=
  { id := 1, name := "n", rating := 0, featured := false, items_in_stock := 0
    brand_id := 7, categories := [cat1], created_at := .int 0
    expiration_date := .null, receipt_date := .null }

/-- The data-model invariant of C7: no stored product has a negative
rating or a negative stock count. -/
def ProdInv (s : Store) : Prop :=
  ∀ p ∈ s.products, 0 ≤ p.rating ∧ 0 ≤ p.items_in_stock

/-- One HTTP request against the service, as a relation between the store
before and after it. -/
inductive Step : Store → Store → Prop where
  | create (now : JValue) (payload : Payload) (s : Store) :
      Step s (create_product now s payload).2
  | update (id : Int) (payload : Payload) (s : Store) :
      Step s (update_product s id payload).2
  | get (id : Int) (s : Store) : Step s (get_product s id).2
  | list (s : Store) : Step s (get_products s).2
  | delete (id : Int) (s : Store) : Step s (delete_product s id).2

/-- Stores reachable from a starting store by some request sequence. -/
inductive Reachable : Store → Store → Prop where
  | refl (s : Store) : Reachable s s
  | tail {s t u : Store} : Reachable s t → Step t u → Reachable s u

/-! ## Error-classification lemmas: which exception kinds each stage can raise -/

theorem brandStep_error {s : Store} {payload : Payload}
    {values : List (String × JValue)} {e : PyError}
    (h : brandStep s payload values = .error e) : e = .invalidPayload := by
  unfold brandStep at h
  cases hg : dictGet payload "brand" with
  | none => rw [hg] at h; exact absurd h (by simp)
  | some bv =>
    rw [hg] at h
    by_cases ht : bv.truthy = true
    · simp only [ht, if_true] at h
      cases hf : s.brands.find? (fun b => bv == JValue.str b.name) with
      | none => rw [hf] at h; injection h with h; exact h.symm
      | some b => rw [hf] at h; exact absurd h (by simp)
    · simp only [ht, if_false, Bool.false_eq_true] at h
      exact absurd h (by simp)

theorem resolveCategories_error {s : Store} {l : List String} {e : PyError}
    (h : resolveCategories s l = .error e) : e = .invalidPayload := by
  induction l with
  | nil => simp [resolveCategories] at h
  | cons n rest ih =>
    simp only [resolveCategories] at h
    cases hf : s.categories.find? (fun c => c.name == n) with
    | none => rw [hf] at h; injection h with h; exact h.symm
    | some c =>
      rw [hf] at h
      cases hr : resolveCategories s rest with
      | error e2 => rw [hr] at h; injection h with h; subst h; exact ih hr
      | ok cs => rw [hr] at h; exact absurd h (by simp)

theorem categoryNames_error {payload : Payload} {e : PyError}
    (h : categoryNames payload = .error e) : e = .typeError := by
  unfold categoryNames at h
  cases hg : dictGet payload "categories" with
  | none => rw [hg] at h; exact absurd h (by simp)
  | some v => rw [hg] at h; cases v <;> simp_all

theorem prepare_values_error {s : Store} {payload : Payload} {e : PyError}
    (h : Product.prepare_values s payload = .error e) :
    e = .invalidPayload ∨ e = .typeError := by
  unfold Product.prepare_values at h
  cases h1 : brandStep s payload (payload.filter (fun kv => productColumns.contains kv.1)) with
  | error e1 =>
    rw [h1] at h; injection h with h; subst h
    exact Or.inl (brandStep_error h1)
  | ok values =>
    rw [h1] at h
    dsimp only at h
    cases h2 : categoryNames payload with
    | error e2 =>
      rw [h2] at h; injection h with h; subst h
      exact Or.inr (categoryNames_error h2)
    | ok names =>
      rw [h2] at h
      dsimp only at h
      cases h3 : resolveCategories s (pyDedup names) with
      | error e3 =>
        rw [h3] at h; injection h with h; subst h
        exact Or.inl (resolveCategories_error h3)
      | ok resolved => rw [h3] at h; exact absurd h (by simp)

/-! ## Dict-comprehension deduplication lemmas -/

theorem pyDedupAux_mem {n : String} : ∀ {l seen : List String},
    n ∈ l → n ∉ seen → n ∈ pyDedupAux seen l := by
  intro l
  induction l with
  | nil => intro seen h _; exact absurd h (List.not_mem_nil n)
  | cons x xs ih =>
    intro seen hmem hns
    unfold pyDedupAux
    by_cases hx : x ∈ seen
    · rw [if_pos hx]
      rcases List.mem_cons.mp hmem with rfl | hmem2
      · exact absurd hx hns
      · exact ih hmem2 hns
    · rw [if_neg hx]
      by_cases hnx : n = x
      · subst hnx; exact List.mem_cons_self _ _
      · rcases List.mem_cons.mp hmem with rfl | hmem2
        · exact absurd rfl hnx
        · exact List.mem_cons_of_mem _
            (ih hmem2 (by simp only [List.mem_cons]; push_neg; exact ⟨hnx, hns⟩))

theorem pyDedup_mem {n : String} {l : List String} (h : n ∈ l) : n ∈ pyDedup l :=
  pyDedupAux_mem h (List.not_mem_nil n)

theorem pyDedup_ne_nil {l : List String} (h : l ≠ []) : pyDedup l ≠ [] := by
  cases l with
  | nil => exact absurd rfl h
  | cons x xs => simp [pyDedup, pyDedupAux]

/-! ## Category-resolution lemmas -/

theorem resolveCategories_ok_resolves {s : Store} : ∀ {l : List String}
    {resolved : List Category}, resolveCategories s l = .ok resolved →
    ∀ n ∈ l, ∃ c ∈ s.categories, c.name = n := by
  intro l
  induction l with
  | nil => intro resolved _ n hn; exact absurd hn (List.not_mem_nil n)
  | cons m rest ih =>
    intro resolved h n hn
    simp only [resolveCategories] at h
    cases hf : s.categories.find? (fun c => c.name == m) with
    | none => rw [hf] at h; exact absurd h (by simp)
    | some c =>
      rw [hf] at h
      cases hr : resolveCategories s rest with
      | error e => rw [hr] at h; exact absurd h (by simp)
      | ok cs =>
        rcases List.mem_cons.mp hn with rfl | hn2
        · exact ⟨c, List.mem_of_find?_eq_some hf, by simpa using List.find?_some hf⟩
        · exact ih hr n hn2

theorem resolveCategories_ok_ne_nil {s : Store} {l : List String}
    {resolved : List Category} (h : resolveCategories s l = .ok resolved)
    (hl : l ≠ []) : resolved ≠ [] := by
  cases l with
  | nil => exact absurd rfl hl
  | cons m rest =>
    simp only [resolveCategories] at h
    cases hf : s.categories.find? (fun c => c.name == m) with
    | none => rw [hf] at h; exact absurd h (by simp)
    | some c =>
      rw [hf] at h; dsimp only at h
      cases hr : resolveCategories s rest with
      | error e => rw [hr] at h; exact absurd h (by simp)
      | ok cs => rw [hr] at h; dsimp only at h; injection h with h; rw [← h]; simp

/-! ## Validator lemmas -/

theorem validate_rating_nonneg {v : JValue} {r : Int}
    (h : Product.validate_rating v = .ok r) : 0 ≤ r := by
  cases v with
  | int n =>
    unfold Product.validate_rating at h
    dsimp only at h
    split at h
    · exact absurd h (by simp)
    · injection h with h; subst h; omega
  | bool b =>
    unfold Product.validate_rating at h
    dsimp only at h
    injection h with h; subst h; cases b <;> simp
  | null => exact absurd h (by simp [Product.validate_rating])
  | str t => exact absurd h (by simp [Product.validate_rating])
  | list xs => exact absurd h (by simp [Product.validate_rating])

theorem validate_items_in_stock_nonneg {v : JValue} {n : Int}
    (h : Product.validate_items_in_stock v = .ok n) : 0 ≤ n := by
  cases v with
  | int m =>
    unfold Product.validate_items_in_stock at h
    dsimp only at h
    split at h
    · exact absurd h (by simp)
    · injection h with h; subst h; omega
  | bool b =>
    unfold Product.validate_items_in_stock at h
    dsimp only at h
    injection h with h; subst h; cases b <;> simp
  | null => exact absurd h (by simp [Product.validate_items_in_stock])
  | str t => exact absurd h (by simp [Product.validate_items_in_stock])
  | list xs => exact absurd h (by simp [Product.validate_items_in_stock])

/-! ## Inversion of successful prepare_values runs -/

theorem prepare_values_ok {s : Store} {payload : Payload} {v : Values}
    (h : Product.prepare_values s payload = .ok v) :
    ∃ cols names resolved,
      brandStep s payload (payload.filter (fun kv => productColumns.contains kv.1)) = .ok cols ∧
      categoryNames payload = .ok names ∧
      resolveCategories s (pyDedup names) = .ok resolved ∧
      v = { cols := cols, cats := if resolved.isEmpty then none else some resolved } := by
  unfold Product.prepare_values at h
  cases h1 : brandStep s payload (payload.filter (fun kv => productColumns.contains kv.1)) with
  | error e1 => rw [h1] at h; exact absurd h (by simp)
  | ok cols =>
    rw [h1] at h; dsimp only at h
    cases h2 : categoryNames payload with
    | error e2 => rw [h2] at h; exact absurd h (by simp)
    | ok names =>
      rw [h2] at h; dsimp only at h
      cases h3 : resolveCategories s (pyDedup names) with
      | error e3 => rw [h3] at h; exact absurd h (by simp)
      | ok resolved =>
        rw [h3] at h; dsimp only at h
        injection h with h
        exact ⟨cols, names, resolved, rfl, rfl, h3, h.symm⟩

/-! ## Lookup lemmas for the column filter -/

theorem find?_key_filter {payload : Payload} {k : String}
    (hk : productColumns.contains k = true) :
    (payload.filter (fun kv => productColumns.contains kv.1)).find? (fun kv => kv.1 == k)
      = payload.find? (fun kv => kv.1 == k) := by
  induction payload with
  | nil => rfl
  | cons kv rest ih =>
    cases hp : productColumns.contains kv.1 with
    | true =>
      have h1 : (kv :: rest).filter (fun kv => productColumns.contains kv.1)
          = kv :: rest.filter (fun kv => productColumns.contains kv.1) := by
        simp only [List.filter_cons, hp, if_true]
      rw [h1]
      cases hq : (kv.1 == k) with
      | true =>
        have e1 : List.find? (fun kv => kv.1 == k)
            (kv :: rest.filter (fun kv => productColumns.contains kv.1)) = some kv :=
          List.find?_cons_of_pos _ hq
        have e2 : List.find? (fun kv => kv.1 == k) (kv :: rest) = some kv :=
          List.find?_cons_of_pos _ hq
        rw [e1, e2]
      | false =>
        have hq2 : ¬ ((fun kv : String × JValue => kv.1 == k) kv = true) := by simp [hq]
        have e1 : List.find? (fun kv => kv.1 == k)
            (kv :: rest.filter (fun kv => productColumns.contains kv.1))
            = List.find? (fun kv => kv.1 == k)
                (rest.filter (fun kv => productColumns.contains kv.1)) :=
          List.find?_cons_of_neg _ hq2
        have e2 : List.find? (fun kv => kv.1 == k) (kv :: rest)
            = List.find? (fun kv => kv.1 == k) rest :=
          List.find?_cons_of_neg _ hq2
        rw [e1, e2]; exact ih
    | false =>
      have h1 : (kv :: rest).filter (fun kv => productColumns.contains kv.1)
          = rest.filter (fun kv => productColumns.contains kv.1) := by
        simp only [List.filter_cons, hp]
        simp
      rw [h1]
      have hq2 : ¬ ((fun kv : String × JValue => kv.1 == k) kv = true) := by
        intro hq
        have hk1 : kv.1 = k := by simpa using hq
        rw [hk1, hk] at hp
        exact Bool.noConfusion hp
      have e2 : List.find? (fun kv => kv.1 == k) (kv :: rest)
          = List.find? (fun kv => kv.1 == k) rest :=
        List.find?_cons_of_neg _ hq2
      rw [e2]
      exact ih

theorem dictGet_filter_columns {payload : Payload} {k : String}
    (hk : productColumns.contains k = true) :
    dictGet (payload.filter (fun kv => productColumns.contains kv.1)) k
      = dictGet payload k := by
  unfold dictGet
  rw [find?_key_filter hk]

/-! ## Field-assignment lemmas -/

theorem applyField_categories {p : Product} {k : String} {v : JValue} {q : Product}
    (h : applyField p k v = .ok q) : q.categories = p.categories := by
  unfold applyField at h
  split_ifs at h
  · cases hv : Product.validate_name v with
    | error e => rw [hv] at h; exact absurd h (by simp)
    | ok n => rw [hv] at h; dsimp only at h; injection h with h; rw [← h]
  · cases hv : Product.validate_featured v with
    | error e => rw [hv] at h; exact absurd h (by simp)
    | ok b => rw [hv] at h; dsimp only at h; injection h with h; rw [← h]
  · cases hv : Product.validate_rating v with
    | error e => rw [hv] at h; exact absurd h (by simp)
    | ok r => rw [hv] at h; dsimp only at h; injection h with h; rw [← h]
  · cases hv : Product.validate_items_in_stock v with
    | error e => rw [hv] at h; exact absurd h (by simp)
    | ok n => rw [hv] at h; dsimp only at h; injection h with h; rw [← h]
  · cases v with
    | int n2 => dsimp only at h; injection h with h; rw [← h]
    | null => exact absurd h (by simp)
    | bool b2 => exact absurd h (by simp)
    | str t2 => exact absurd h (by simp)
    | list xs2 => exact absurd h (by simp)
  · cases v with
    | int n2 => dsimp only at h; injection h with h; rw [← h]
    | null => exact absurd h (by simp)
    | bool b2 => exact absurd h (by simp)
    | str t2 => exact absurd h (by simp)
    | list xs2 => exact absurd h (by simp)
  · injection h with h; rw [← h]
  · injection h with h; rw [← h]
  · injection h with h; rw [← h]
  · injection h with h; rw [← h]

theorem applyFields_categories : ∀ {cols : List (String × JValue)} {p q : Product},
    applyFields p cols = .ok q → q.categories = p.categories := by
  intro cols
  induction cols with
  | nil => intro p q h; injection h with h; rw [← h]
  | cons kv rest ih =>
    intro p q h
    simp only [applyFields] at h
    cases ha : applyField p kv.1 kv.2 with
    | error e => rw [ha] at h; exact absurd h (by simp)
    | ok p2 =>
      rw [ha] at h; dsimp only at h
      rw [ih h, applyField_categories ha]

theorem applyField_nonneg {p : Product} {k : String} {v : JValue} {q : Product}
    (hp : 0 ≤ p.rating ∧ 0 ≤ p.items_in_stock)
    (h : applyField p k v = .ok q) : 0 ≤ q.rating ∧ 0 ≤ q.items_in_stock := by
  unfold applyField at h
  split_ifs at h
  · cases hv : Product.validate_name v with
    | error e => rw [hv] at h; exact absurd h (by simp)
    | ok n => rw [hv] at h; dsimp only at h; injection h with h; rw [← h]; exact hp
  · cases hv : Product.validate_featured v with
    | error e => rw [hv] at h; exact absurd h (by simp)
    | ok b => rw [hv] at h; dsimp only at h; injection h with h; rw [← h]; exact hp
  · cases hv : Product.validate_rating v with
    | error e => rw [hv] at h; exact absurd h (by simp)
    | ok r =>
      rw [hv] at h; dsimp only at h; injection h with h; rw [← h]
      exact ⟨validate_rating_nonneg hv, hp.2⟩
  · cases hv : Product.validate_items_in_stock v with
    | error e => rw [hv] at h; exact absurd h (by simp)
    | ok n =>
      rw [hv] at h; dsimp only at h; injection h with h; rw [← h]
      exact ⟨hp.1, validate_items_in_stock_nonneg hv⟩
  · cases v with
    | int n2 => dsimp only at h; injection h with h; rw [← h]; exact hp
    | null => exact absurd h (by simp)
    | bool b2 => exact absurd h (by simp)
    | str t2 => exact absurd h (by simp)
    | list xs2 => exact absurd h (by simp)
  · cases v with
    | int n2 => dsimp only at h; injection h with h; rw [← h]; exact hp
    | null => exact absurd h (by simp)
    | bool b2 => exact absurd h (by simp)
    | str t2 => exact absurd h (by simp)
    | list xs2 => exact absurd h (by simp)
  · injection h with h; rw [← h]; exact hp
  · injection h with h; rw [← h]; exact hp
  · injection h with h; rw [← h]; exact hp
  · injection h with h; rw [← h]; exact hp

theorem applyFields_nonneg : ∀ {cols : List (String × JValue)} {p q : Product},
    (0 ≤ p.rating ∧ 0 ≤ p.items_in_stock) → applyFields p cols = .ok q →
    0 ≤ q.rating ∧ 0 ≤ q.items_in_stock := by
  intro cols
  induction cols with
  | nil => intro p q hp h; injection h with h; rw [← h]; exact hp
  | cons kv rest ih =>
    intro p q hp h
    simp only [applyFields] at h
    cases ha : applyField p kv.1 kv.2 with
    | error e => rw [ha] at h; exact absurd h (by simp)
    | ok p2 =>
      rw [ha] at h; dsimp only at h
      exact ih (applyField_nonneg hp ha) h

theorem initField_nonneg {o : ProductObj} {k : String} {v : JValue} {o2 : ProductObj}
    (ho : (∀ r, o.rating = some r → 0 ≤ r) ∧ (∀ n, o.items_in_stock = some n → 0 ≤ n))
    (h : initField o k v = .ok o2) :
    (∀ r, o2.rating = some r → 0 ≤ r) ∧ (∀ n, o2.items_in_stock = some n → 0 ≤ n) := by
  unfold initField at h
  split_ifs at h
  · cases hv : Product.validate_name v with
    | error e => rw [hv] at h; exact absurd h (by simp)
    | ok n => rw [hv] at h; dsimp only at h; injection h with h; rw [← h]; exact ho
  · cases hv : Product.validate_featured v with
    | error e => rw [hv] at h; exact absurd h (by simp)
    | ok b => rw [hv] at h; dsimp only at h; injection h with h; rw [← h]; exact ho
  · cases hv : Product.validate_rating v with
    | error e => rw [hv] at h; exact absurd h (by simp)
    | ok r =>
      rw [hv] at h; dsimp only at h; injection h with h; rw [← h]
      refine ⟨fun r2 hr2 => ?_, ho.2⟩
      have : r = r2 := by injection hr2
      rw [← this]; exact validate_rating_nonneg hv
  · cases hv : Product.validate_items_in_stock v with
    | error e => rw [hv] at h; exact absurd h (by simp)
    | ok n =>
      rw [hv] at h; dsimp only at h; injection h with h; rw [← h]
      refine ⟨ho.1, fun n2 hn2 => ?_⟩
      have : n = n2 := by injection hn2
      rw [← this]; exact validate_items_in_stock_nonneg hv
  · cases v with
    | int n2 => dsimp only at h; injection h with h; rw [← h]; exact ho
    | null => exact absurd h (by simp)
    | bool b2 => exact absurd h (by simp)
    | str t2 => exact absurd h (by simp)
    | list xs2 => exact absurd h (by simp)
  · cases v with
    | int n2 => dsimp only at h; injection h with h; rw [← h]; exact ho
    | null => exact absurd h (by simp)
    | bool b2 => exact absurd h (by simp)
    | str t2 => exact absurd h (by simp)
    | list xs2 => exact absurd h (by simp)
  · injection h with h; rw [← h]; exact ho
  · injection h with h; rw [← h]; exact ho
  · injection h with h; rw [← h]; exact ho
  · injection h with h; rw [← h]; exact ho

theorem initFields_nonneg : ∀ {cols : List (String × JValue)} {o o2 : ProductObj},
    ((∀ r, o.rating = some r → 0 ≤ r) ∧ (∀ n, o.items_in_stock = some n → 0 ≤ n)) →
    initFields o cols = .ok o2 →
    (∀ r, o2.rating = some r → 0 ≤ r) ∧ (∀ n, o2.items_in_stock = some n → 0 ≤ n) := by
  intro cols
  induction cols with
  | nil => intro o o2 ho h; injection h with h; rw [← h]; exact ho
  | cons kv rest ih =>
    intro o o2 ho h
    simp only [initFields] at h
    cases ha : initField o kv.1 kv.2 with
    | error e => rw [ha] at h; exact absurd h (by simp)
    | ok omid =>
      rw [ha] at h; dsimp only at h
      exact ih (initField_nonneg ho ha) h

/-! ## Insertion and commit lemmas -/

theorem mem_id_lt_freshId {s : Store} {q : Product} (hq : q ∈ s.products) :
    q.id < freshId s := by
  unfold freshId
  have hle : ∀ l : List Product, q ∈ l →
      q.id ≤ l.foldr (fun p m => max p.id m) 0 := by
    intro l
    induction l with
    | nil => intro h; exact absurd h (List.not_mem_nil q)
    | cons x xs ih =>
      intro h
      rcases List.mem_cons.mp h with rfl | h2
      · simp only [List.foldr_cons]; exact le_max_left _ _
      · calc q.id ≤ xs.foldr (fun p m => max p.id m) 0 := ih h2
          _ ≤ max x.id (xs.foldr (fun p m => max p.id m) 0) := le_max_right _ _
  have := hle s.products hq
  omega

theorem newId_fresh {s : Store} {o : ProductObj} {pid : Int}
    (h : newId s o = .ok pid) : ∀ q ∈ s.products, q.id ≠ pid := by
  unfold newId at h
  cases ho : o.id with
  | none =>
    rw [ho] at h; injection h with h; subst h
    intro q hq
    exact Int.ne_of_lt (mem_id_lt_freshId hq)
  | some n =>
    rw [ho] at h; dsimp only at h
    split at h
    · exact absurd h (by simp)
    · injection h with h; subst h
      intro q hq
      have hfalse := List.any_eq_false.mp (Bool.not_eq_true _ |>.mp (by assumption)) q hq
      simpa using hfalse

theorem insertProduct_ok {now : JValue} {s : Store} {o : ProductObj}
    {s2 : Store} {p : Product} (h : insertProduct now s o = .ok (s2, p)) :
    s2.products = s.products ++ [p] ∧ s2.brands = s.brands ∧
    s2.categories = s.categories ∧ (∀ q ∈ s.products, q.id ≠ p.id) ∧
    p.categories = o.categories ∧ o.rating = some p.rating ∧
    o.items_in_stock = some p.items_in_stock := by
  unfold insertProduct at h
  cases hid : newId s o with
  | error e => rw [hid] at h; exact absurd h (by simp)
  | ok pid =>
    rw [hid] at h; dsimp only at h
    cases hn : o.name with
    | none => rw [hn] at h; exact absurd h (by simp)
    | some name =>
      rw [hn] at h; dsimp only at h
      cases hr : o.rating with
      | none => rw [hr] at h; exact absurd h (by simp)
      | some rating =>
        rw [hr] at h; dsimp only at h
        cases hi : o.items_in_stock with
        | none => rw [hi] at h; exact absurd h (by simp)
        | some items =>
          rw [hi] at h; dsimp only at h
          cases hb : o.brand_id with
          | none => rw [hb] at h; exact absurd h (by simp)
          | some brand_id =>
            rw [hb] at h; dsimp only at h
            cases hc : createdAtValue now o with
            | error e => rw [hc] at h; exact absurd h (by simp)
            | ok created_at =>
              rw [hc] at h; dsimp only at h
              injection h with h
              injection h with h1 h2
              subst h1; subst h2
              refine ⟨rfl, rfl, rfl, newId_fresh hid, rfl, rfl, rfl⟩

theorem commitUpdate_ok {s : Store} {oldId : Int} {p : Product} {s2 : Store}
    (h : commitUpdate s oldId p = .ok s2) :
    s2.products = s.products.map (fun q => if q.id == oldId then p else q) ∧
    s2.brands = s.brands ∧ s2.categories = s.categories := by
  unfold commitUpdate at h
  split at h
  · exact absurd h (by simp)
  · injection h with h; subst h; exact ⟨rfl, rfl, rfl⟩

/-! ## Operation-level inversion lemmas -/

theorem update_get_none (s : Store) (id : Int) (payload : Payload)
    (hf : s.products.find? (fun p => p.id == id) = none) :
    Product.update s id payload = .ok (s, none) ∨
    (∃ e, Product.update s id payload = .error e ∧ e ≠ PyError.noResultFound) := by
  unfold Product.update
  cases hpv : Product.prepare_values s payload with
  | error e =>
    right
    refine ⟨e, rfl, ?_⟩
    rcases prepare_values_error hpv with rfl | rfl <;> simp
  | ok values =>
    dsimp only
    rw [hf]
    dsimp only
    by_cases hc : values.cols = [] ∧ values.cats = none
    · rw [if_pos hc]; left; rfl
    · rw [if_neg hc]; right; exact ⟨.attributeError, rfl, by simp⟩

theorem update_ok_some {s : Store} {id : Int} {payload : Payload}
    {s2 : Store} {p2 : Product}
    (h : Product.update s id payload = .ok (s2, some p2)) :
    ∃ values p p1,
      Product.prepare_values s payload = .ok values ∧
      s.products.find? (fun q => q.id == id) = some p ∧
      applyFields p values.cols = .ok p1 ∧
      p2 = (match values.cats with
            | some cs => { p1 with categories := cs }
            | none => p1) ∧
      commitUpdate s id p2 = .ok s2 := by
  unfold Product.update at h
  cases hpv : Product.prepare_values s payload with
  | error e => rw [hpv] at h; exact absurd h (by simp)
  | ok values =>
    rw [hpv] at h; dsimp only at h
    cases hf : s.products.find? (fun q => q.id == id) with
    | none =>
      rw [hf] at h; dsimp only at h
      split at h
      · injection h with h
        injection h with h1 h2
        exact absurd h2 (by simp)
      · exact absurd h (by simp)
    | some p =>
      rw [hf] at h; dsimp only at h
      cases ha : applyFields p values.cols with
      | error e => rw [ha] at h; exact absurd h (by simp)
      | ok p1 =>
        rw [ha] at h; dsimp only at h
        cases hcu : commitUpdate s id
            (match values.cats with
             | some cs => { p1 with categories := cs }
             | none => p1) with
        | error e => rw [hcu] at h; exact absurd h (by simp)
        | ok s1 =>
          rw [hcu] at h; dsimp only at h
          injection h with h
          injection h with h1 h2
          injection h2 with h2
          subst h1; subst h2
          exact ⟨values, p, p1, rfl, rfl, ha, rfl, hcu⟩

theorem create_ok {now : JValue} {s : Store} {payload : Payload}
    {s2 : Store} {p : Product}
    (h : Product.create now s payload = .ok (s2, p)) :
    ∃ values obj,
      Product.prepare_values s payload = .ok values ∧
      (∃ bv, dictGet values.cols "brand_id" = some bv ∧ bv.truthy = true) ∧
      (∃ l, values.cats = some l ∧ l ≠ []) ∧
      initFields ProductObj.empty values.cols = .ok obj ∧
      insertProduct now s { obj with categories := values.cats.getD [] } = .ok (s2, p) := by
  unfold Product.create at h
  cases hpv : Product.prepare_values s payload with
  | error e => rw [hpv] at h; exact absurd h (by simp)
  | ok values =>
    rw [hpv] at h; dsimp only at h
    split at h
    · exact absurd h (by simp)
    · split at h
      · exact absurd h (by simp)
      · cases hi : initFields ProductObj.empty values.cols with
        | error e => rw [hi] at h; exact absurd h (by simp)
        | ok obj =>
          rw [hi] at h; dsimp only at h
          refine ⟨values, obj, rfl, ?_, ?_, hi, h⟩
          · cases hg : dictGet values.cols "brand_id" with
            | none =>
              exfalso
              have hb : (dictGet values.cols "brand_id").elim true
                  (fun bv => !bv.truthy) = true := by rw [hg]; rfl
              simp_all
            | some bv =>
              refine ⟨bv, rfl, ?_⟩
              have hb : ¬ ((dictGet values.cols "brand_id").elim true
                  (fun bv => !bv.truthy) = true) := by assumption
              rw [hg] at hb
              simpa using hb
          · cases hcat : values.cats with
            | none =>
              exfalso
              have hb : values.cats.elim true List.isEmpty = true := by rw [hcat]; rfl
              simp_all
            | some l =>
              refine ⟨l, rfl, ?_⟩
              have hb : ¬ (values.cats.elim true List.isEmpty = true) := by assumption
              rw [hcat] at hb
              intro hl
              subst hl
              exact hb rfl

/-! ## Claim theorems -/

/-- C3: the name validator accepts a string name exactly when its length is
at most 50; the lower-bound branch of the source check never fires, so the
empty name is accepted even though the data model asks for length 1 to 50. -/
theorem validate_name_accepts_iff_le_50 (name : String) :
    Product.validate_name (JValue.str name) = .ok name ↔ name.length ≤ 50 := by
  unfold Product.validate_name
  dsimp only
  constructor
  · intro h
    by_cases h50 : name.length < 0 ∨ 50 < name.length
    · rw [if_pos h50] at h; exact absurd h (by simp)
    · omega
  · intro h
    rw [if_neg (by omega)]

/-- Witness for C3: the empty name — length 0, below the documented lower
bound of 1 — is accepted by the validator. -/
theorem validate_name_accepts_iff_le_50_witness :
    Product.validate_name (JValue.str "") = .ok "" ∧ ("" : String).length ≤ 50 :=
  ⟨(validate_name_accepts_iff_le_50 "").mpr (by decide), by decide⟩

/-- C2 counterexample: updating the stored product with a present
`categories` key bound to the empty list succeeds, yet the full category
set is NOT replaced by the empty success list — the stored categories stay
untouched, against the claim's reading for the empty list. -/
theorem update_empty_categories_cex :
    Product.update storeOne 1 [("categories", JValue.list [])]
      = .ok (storeOne, some p1) ∧
    p1.categories ≠ [] := ⟨rfl, by decide⟩

/-- C4: updating any stored product with the payload binding rating to -1
fails the rating validator with a ValueError, and the PUT endpoint maps it
to a 410 response with the store — hence the stored rating — unchanged. -/
theorem update_negative_rating_fails (s : Store) (p : Product)
    (hp : p ∈ s.products) :
    Product.update s p.id [("rating", JValue.int (-1))] = .error .valueError ∧
    update_product s p.id [("rating", JValue.int (-1))] = (410, s) := by
  have hprep : Product.prepare_values s [("rating", JValue.int (-1))] =
      .ok { cols := [("rating", JValue.int (-1))], cats := none } := rfl
  obtain ⟨q, hfq⟩ : ∃ q, s.products.find? (fun q => q.id == p.id) = some q := by
    cases hf : s.products.find? (fun q => q.id == p.id) with
    | none =>
      exact absurd (by simp : (p.id == p.id) = true)
        (by simpa using List.find?_eq_none.mp hf p hp)
    | some q => exact ⟨q, rfl⟩
  have happ : applyFields q [("rating", JValue.int (-1))] = .error .valueError := rfl
  have hupd : Product.update s p.id [("rating", JValue.int (-1))]
      = .error .valueError := by
    unfold Product.update
    rw [hprep]
    dsimp only
    rw [hfq]
    dsimp only
    rw [happ]
  refine ⟨hupd, ?_⟩
  unfold update_product
  rw [hupd]

/-- Witness for C4 at the concrete one-product store. -/
theorem update_negative_rating_fails_witness :
    p1 ∈ storeOne.products ∧
    Product.update storeOne p1.id [("rating", JValue.int (-1))]
      = .error .valueError ∧
    update_product storeOne p1.id [("rating", JValue.int (-1))]
      = (410, storeOne) := by
  have h := update_negative_rating_fails storeOne p1 (by decide)
  exact ⟨by decide, h.1, h.2⟩

/-- C5 counterexample: a payload whose brand key holds the empty-string
name (matching no stored brand) is not rejected — the falsy check skips
brand resolution, a literal brand_id column passes the brand-required
test, and a product record is created. -/
theorem create_blank_brand_cex :
    (∀ b ∈ storeEmpty.brands, b.name ≠ "") ∧
    Product.create (JValue.int 0) storeEmpty payloadBlankBrand
      = .ok (⟨[pBlank], [brand1], [cat1]⟩, pBlank) ∧
    (⟨[pBlank], [brand1], [cat1]⟩ : Store).products ≠ storeEmpty.products :=
  ⟨by decide, rfl, by decide⟩

theorem update_ok_none {s : Store} {id : Int} {payload : Payload} {s2 : Store}
    (h : Product.update s id payload = .ok (s2, none)) : s2 = s := by
  unfold Product.update at h
  cases hpv : Product.prepare_values s payload with
  | error e => rw [hpv] at h; exact absurd h (by simp)
  | ok values =>
    rw [hpv] at h; dsimp only at h
    cases hf : s.products.find? (fun q => q.id == id) with
    | none =>
      rw [hf] at h; dsimp only at h
      split at h
      · injection h with h; injection h with h1 h2; exact h1.symm
      · exact absurd h (by simp)
    | some p =>
      rw [hf] at h; dsimp only at h
      cases ha : applyFields p values.cols with
      | error e => rw [ha] at h; exact absurd h (by simp)
      | ok p1 =>
        rw [ha] at h; dsimp only at h
        cases hcu : commitUpdate s id
            (match values.cats with
             | some cs => { p1 with categories := cs }
             | none => p1) with
        | error e => rw [hcu] at h; exact absurd h (by simp)
        | ok s1 =>
          rw [hcu] at h; dsimp only at h
          injection h with h
          injection h with h1 h2
          exact absurd h2 (by simp)

/-- C1 (divergence from the spec): for every id with no stored product the
PUT endpoint answers 410, never 404 — `query.get` returns None instead of
raising NoResultFound, so the 404 branch of the update handler cannot
fire. -/
theorem put_missing_id_returns_410 (s : Store) (id : Int) (payload : Payload)
    (h : ∀ p ∈ s.products, p.id ≠ id) :
    (update_product s id payload).1 = 410 := by
  have hf : s.products.find? (fun p => p.id == id) = none :=
    List.find?_eq_none.mpr fun x hx => by simpa using h x hx
  rcases update_get_none s id payload hf with hok | ⟨e, herr, hne⟩
  · unfold update_product
    rw [hok]
  · unfold update_product
    rw [herr]
    cases e <;> first | rfl | (exact absurd rfl hne)

/-- Witness for C1: PUT on the empty store answers 410. -/
theorem put_missing_id_returns_410_witness :
    (∀ p ∈ storeEmpty.products, p.id ≠ (1 : Int)) ∧
    (update_product storeEmpty 1 [("name", JValue.str "x")]).1 = 410 :=
  ⟨by decide,
   put_missing_id_returns_410 storeEmpty 1 [("name", JValue.str "x")] (by decide)⟩

/-- C5 (amended): a payload whose brand key is a NON-EMPTY name matching no
stored brand makes create raise InvalidPayload, and the POST endpoint
answers 410 with the store unchanged — no record is created.  (The empty
name is excluded: being falsy it skips resolution entirely, and a record
can then be created when a literal brand_id column is present.) -/
theorem create_unknown_brand_fails (now : JValue) (s : Store) (payload : Payload)
    (bn : String) (hb : dictGet payload "brand" = some (.str bn)) (hne : bn ≠ "")
    (hunk : ∀ b ∈ s.brands, b.name ≠ bn) :
    Product.create now s payload = .error .invalidPayload ∧
    create_product now s payload = (410, s) := by
  have hfb : s.brands.find? (fun b => JValue.str bn == JValue.str b.name) = none := by
    apply List.find?_eq_none.mpr
    intro b hbmem
    simp only [JValue.beq_def]
    simp only [decide_eq_true_eq]
    intro hh
    injection hh with hh
    exact hunk b hbmem hh.symm
  have hbs : brandStep s payload (payload.filter (fun kv => productColumns.contains kv.1))
      = .error .invalidPayload := by
    unfold brandStep
    rw [hb]
    dsimp only
    rw [if_pos (by simpa [JValue.truthy] using hne)]
    rw [hfb]
  have hprep : Product.prepare_values s payload = .error .invalidPayload := by
    unfold Product.prepare_values
    rw [hbs]
  have hcr : Product.create now s payload = .error .invalidPayload := by
    unfold Product.create
    rw [hprep]
  refine ⟨hcr, ?_⟩
  unfold create_product
  rw [hcr]

/-- Witness for C5: creating with the unknown brand name zzz fails. -/
theorem create_unknown_brand_fails_witness :
    ("zzz" : String) ≠ "" ∧ (∀ b ∈ storeEmpty.brands, b.name ≠ "zzz") ∧
    Product.create (JValue.int 0) storeEmpty [("brand", JValue.str "zzz")]
      = .error .invalidPayload ∧
    create_product (JValue.int 0) storeEmpty [("brand", JValue.str "zzz")]
      = (410, storeEmpty) := by
  have h := create_unknown_brand_fails (JValue.int 0) storeEmpty
      [("brand", JValue.str "zzz")] "zzz" rfl (by decide) (by decide)
  exact ⟨by decide, by decide, h.1, h.2⟩

/-- C2 (amended): with a categories key bound to a list of names present,
a successful update means every listed name resolved to a stored Category
(so any unresolved name fails the whole operation); a NONEMPTY list
replaces the full category set with the resolved, first-occurrence
deduplicated list, while the EMPTY list leaves the stored category set
unchanged instead of clearing it. -/
theorem categories_resolution_and_replacement
    (s : Store) (id : Int) (payload : Payload) (names : List String)
    (hc : dictGet payload "categories" = some (.list names))
    (s2 : Store) (p2 : Product)
    (h : Product.update s id payload = .ok (s2, some p2)) :
    (∀ n ∈ names, ∃ c ∈ s.categories, c.name = n) ∧
    (names ≠ [] → ∃ resolved, resolveCategories s (pyDedup names) = .ok resolved ∧
        p2.categories = resolved) ∧
    (names = [] → ∃ p, s.products.find? (fun q => q.id == id) = some p ∧
        p2.categories = p.categories) := by
  obtain ⟨values, p, pmid, hpv, hfind, happ, hp2, hcu⟩ := update_ok_some h
  obtain ⟨cols, names2, resolved, hbs, hcn, hrc, hveq⟩ := prepare_values_ok hpv
  have hn2 : names2 = names := by
    unfold categoryNames at hcn
    rw [hc] at hcn
    dsimp only at hcn
    injection hcn with hcn
    exact hcn.symm
  subst hn2
  refine ⟨fun n hn => resolveCategories_ok_resolves hrc n (pyDedup_mem hn), ?_, ?_⟩
  · intro hne
    have hres : resolved ≠ [] := resolveCategories_ok_ne_nil hrc (pyDedup_ne_nil hne)
    refine ⟨resolved, hrc, ?_⟩
    have hcats : values.cats = some resolved := by
      rw [hveq]
      dsimp only
      rw [if_neg (by simp [hres])]
    rw [hcats] at hp2
    dsimp only at hp2
    rw [hp2]
  · intro hnil
    subst hnil
    have hres : resolved = [] := by
      have h0 : resolveCategories s (pyDedup ([] : List String))
          = .ok ([] : List Category) := rfl
      have := h0.symm.trans hrc
      injection this with this
      exact this.symm
  -- empty list: the categories entry is never put into the value dict
    have hcats : values.cats = none := by
      rw [hveq]
      dsimp only
      rw [if_pos (by simp [hres])]
    rw [hcats] at hp2
    dsimp only at hp2
    rw [hp2]
    exact ⟨p, hfind, applyFields_categories happ⟩

/-- Witness for C2: updating the one-product store with the single
category name food succeeds and every listed name resolves. -/
theorem categories_resolution_witness :
    dictGet [("categories", JValue.list ["food"])] "categories"
      = some (JValue.list ["food"]) ∧
    Product.update storeOne 1 [("categories", JValue.list ["food"])]
      = .ok (storeOne, some p1) ∧
    (∀ n ∈ ["food"], ∃ c ∈ storeOne.categories, c.name = n) ∧
    (["food"] ≠ [] → ∃ resolved,
        resolveCategories storeOne (pyDedup ["food"]) = .ok resolved ∧
        p1.categories = resolved) := by
  have h := categories_resolution_and_replacement storeOne 1
      [("categories", JValue.list ["food"])] ["food"] rfl storeOne p1 rfl
  exact ⟨rfl, rfl, h.1, h.2.1⟩

/-- C6: a creation payload whose categories key is absent or bound to the
empty list always fails — the endpoint answers 410 and the store is
unchanged, so no record is created — and dually every successfully created
product carries at least one category. -/
theorem create_requires_nonempty_categories (now : JValue) (s : Store)
    (payload : Payload) :
    ((dictGet payload "categories" = none ∨
      dictGet payload "categories" = some (JValue.list [])) →
      (∃ e, Product.create now s payload = .error e) ∧
      create_product now s payload = (410, s)) ∧
    (∀ s2 p, Product.create now s payload = .ok (s2, p) → p.categories ≠ []) := by
  constructor
  · intro hc
    have hcats : ∀ v, Product.prepare_values s payload = .ok v → v.cats = none := by
      intro v hv
      obtain ⟨cols, names, resolved, hbs, hcn, hrc, hveq⟩ := prepare_values_ok hv
      have hnames : names = [] := by
        unfold categoryNames at hcn
        rcases hc with hc | hc <;> rw [hc] at hcn <;> dsimp only at hcn <;>
          (injection hcn with hcn; exact hcn.symm)
      subst hnames
      have hres : resolved = [] := by
        have h0 : resolveCategories s (pyDedup ([] : List String))
            = .ok ([] : List Category) := rfl
        have := h0.symm.trans hrc
        injection this with this
        exact this.symm
      rw [hveq]
      dsimp only
      rw [if_pos (by simp [hres])]
    cases hcv : Product.create now s payload with
    | error e =>
      refine ⟨⟨e, rfl⟩, ?_⟩
      unfold create_product
      rw [hcv]
    | ok pr =>
      exfalso
      obtain ⟨s2, p⟩ := pr
      obtain ⟨values, obj, hpv, hbid, ⟨l, hl, hlne⟩, hinit, hins⟩ := create_ok hcv
      have := hcats values hpv
      rw [this] at hl
      exact Option.noConfusion hl
  · intro s2 p h
    obtain ⟨values, obj, hpv, hbid, ⟨l, hl, hlne⟩, hinit, hins⟩ := create_ok h
    obtain ⟨-, -, -, -, hpcats, -, -⟩ := insertProduct_ok hins
    rw [hpcats]
    dsimp only
    rw [hl]
    simpa using hlne

/-- Witness for C6: creating with a valid brand but an empty category list
fails with 410 and the store stays empty of products. -/
theorem create_requires_nonempty_categories_witness :
    dictGet [("brand", JValue.str "acme"), ("name", JValue.str "x"),
        ("categories", JValue.list [])] "categories"
      = some (JValue.list []) ∧
    create_product (JValue.int 0) storeEmpty
        [("brand", JValue.str "acme"), ("name", JValue.str "x"),
         ("categories", JValue.list [])]
      = (410, storeEmpty) := by
  have h := (create_requires_nonempty_categories (JValue.int 0) storeEmpty
      [("brand", JValue.str "acme"), ("name", JValue.str "x"),
       ("categories", JValue.list [])]).1 (Or.inr rfl)
  exact ⟨rfl, h.2⟩

theorem create_preserves_inv {now : JValue} {s : Store} {payload : Payload}
    (hinv : ProdInv s) : ProdInv (create_product now s payload).2 := by
  unfold create_product
  cases hc : Product.create now s payload with
  | error e => exact hinv
  | ok pr =>
    obtain ⟨s2, p⟩ := pr
    dsimp only
    have hs2 : ProdInv s2 := by
      obtain ⟨values, obj, hpv, _, _, hinit, hins⟩ := create_ok hc
      obtain ⟨hprod, -, -, -, -, hr, hi⟩ := insertProduct_ok hins
      have hbase : (∀ r, ProductObj.empty.rating = some r → 0 ≤ r) ∧
          (∀ n, ProductObj.empty.items_in_stock = some n → 0 ≤ n) :=
        ⟨fun r hr2 => Option.noConfusion hr2, fun n hn2 => Option.noConfusion hn2⟩
      have hobj := initFields_nonneg hbase hinit
      intro q hq
      rw [hprod] at hq
      rcases List.mem_append.mp hq with hq | hq
      · exact hinv q hq
      · have hq1 : q = p := by simpa using hq
        subst hq1
        exact ⟨hobj.1 q.rating hr, hobj.2 q.items_in_stock hi⟩
    cases Product.serialized s2 p <;> exact hs2

theorem update_preserves_inv {s : Store} {id : Int} {payload : Payload}
    (hinv : ProdInv s) : ProdInv (update_product s id payload).2 := by
  unfold update_product
  cases hu : Product.update s id payload with
  | error e => cases e <;> exact hinv
  | ok pr =>
    obtain ⟨s2, po⟩ := pr
    cases po with
    | none =>
      dsimp only
      rw [update_ok_none hu]
      exact hinv
    | some p2 =>
      dsimp only
      have hs2 : ProdInv s2 := by
        obtain ⟨values, p, pmid, hpv, hfind, happ, hp2, hcu⟩ := update_ok_some hu
        obtain ⟨hmap, -, -⟩ := commitUpdate_ok hcu
        have hpOK := hinv p (List.mem_of_find?_eq_some hfind)
        have hmidOK := applyFields_nonneg hpOK happ
        have hp2OK : 0 ≤ p2.rating ∧ 0 ≤ p2.items_in_stock := by
          rw [hp2]
          cases values.cats <;> dsimp only <;> exact hmidOK
        intro q hq
        rw [hmap] at hq
        rcases List.mem_map.mp hq with ⟨q0, hq0, hq0eq⟩
        rw [← hq0eq]
        by_cases h0 : (q0.id == id) = true
        · rw [if_pos h0]; exact hp2OK
        · rw [if_neg h0]; exact hinv q0 hq0
      cases Product.serialized s2 p2 <;> exact hs2

theorem delete_preserves_inv {s : Store} {id : Int}
    (hinv : ProdInv s) : ProdInv (delete_product s id).2 := by
  unfold delete_product Product.delete
  cases s.products.find? (fun p => p.id == id) with
  | none => exact hinv
  | some p =>
    intro q hq
    dsimp only at hq
    exact hinv q (List.mem_of_mem_filter hq)

theorem get_product_store (s : Store) (id : Int) : (get_product s id).2 = s := by
  unfold get_product
  cases Product.retrieve s id with
  | ok p =>
    dsimp only
    cases Product.serialized s p <;> rfl
  | error e => cases e <;> rfl

theorem get_products_store (s : Store) : (get_products s).2 = s := by
  unfold get_products
  split <;> rfl

theorem step_preserves_inv {s t : Store} (hinv : ProdInv s) (hst : Step s t) :
    ProdInv t := by
  cases hst with
  | create now payload s => exact create_preserves_inv hinv
  | update id payload s => exact update_preserves_inv hinv
  | get id s => rw [get_product_store]; exact hinv
  | list s => rw [get_products_store]; exact hinv
  | delete id s => exact delete_preserves_inv hinv

/-- C7: starting from any store whose products all satisfy the
non-negativity invariant, every reachable store still satisfies it, and
every single operation (create, update, get, list, delete) preserves it. -/
theorem stored_nonneg_invariant (s0 s : Store) (h0 : ProdInv s0)
    (hreach : Reachable s0 s) :
    ProdInv s ∧ (∀ t u, ProdInv t → Step t u → ProdInv u) := by
  refine ⟨?_, fun t u ht hst => step_preserves_inv ht hst⟩
  induction hreach with
  | refl => exact h0
  | tail hr hst ih => exact step_preserves_inv ih hst

/-- Witness for C7 at the concrete one-product store. -/
theorem stored_nonneg_invariant_witness :
    ProdInv storeOne ∧
    (ProdInv storeOne ∧ (∀ t u, ProdInv t → Step t u → ProdInv u)) :=
  ⟨by unfold ProdInv; decide,
   stored_nonneg_invariant storeOne storeOne (by unfold ProdInv; decide)
     (Reachable.refl storeOne)⟩

/-- C8: deleting a nonexistent id answers 204 with the store unchanged and
raises nothing; deleting an existing id answers 204, removes every product
with that id, and a subsequent GET of that id answers 404. -/
theorem delete_semantics (s : Store) (id : Int) :
    ((∀ p ∈ s.products, p.id ≠ id) → delete_product s id = (204, s)) ∧
    ((∃ p ∈ s.products, p.id = id) →
      (delete_product s id).1 = 204 ∧
      (∀ q ∈ (delete_product s id).2.products, q.id ≠ id) ∧
      (get_product (delete_product s id).2 id).1 = 404) := by
  constructor
  · intro h
    unfold delete_product Product.delete
    have hf : s.products.find? (fun p => p.id == id) = none :=
      List.find?_eq_none.mpr fun x hx => by simpa using h x hx
    rw [hf]
  · rintro ⟨p, hp, hpid⟩
    obtain ⟨q, hq⟩ : ∃ q, s.products.find? (fun q2 => q2.id == id) = some q := by
      cases hff : s.products.find? (fun q2 => q2.id == id) with
      | none =>
        exact absurd (by simp [hpid] : (p.id == id) = true)
          (by simpa using List.find?_eq_none.mp hff p hp)
      | some q => exact ⟨q, rfl⟩
    have hdel : delete_product s id =
        (204, { s with products := s.products.filter (fun p => !(p.id == id)) }) := by
      unfold delete_product Product.delete
      rw [hq]
    refine ⟨by rw [hdel], ?_, ?_⟩
    · intro r hr
      rw [hdel] at hr
      dsimp only at hr
      have := List.of_mem_filter hr
      simpa using this
    · rw [hdel]
      dsimp only
      unfold get_product
      have hrt : Product.retrieve
          { s with products := s.products.filter (fun p => !(p.id == id)) } id
          = .error .noResultFound := by
        unfold Product.retrieve
        have hnil : (s.products.filter (fun p => !(p.id == id))).filter
            (fun p => p.id == id) = [] := by
          rw [List.filter_filter]
          exact List.filter_eq_nil_iff.mpr
            (fun a _ => by cases h : (a.id == id) <;> simp [h])
        dsimp only
        rw [hnil]
      rw [hrt]

/-- Witness for C8 applied to the one-product store and both the stored id
and a missing id. -/
theorem delete_semantics_witness :
    ((∀ p ∈ storeOne.products, p.id ≠ (7 : Int)) ∧
      delete_product storeOne 7 = (204, storeOne)) ∧
    ((∃ p ∈ storeOne.products, p.id = (1 : Int)) ∧
      (delete_product storeOne 1).1 = 204 ∧
      (∀ q ∈ (delete_product storeOne 1).2.products, q.id ≠ (1 : Int)) ∧
      (get_product (delete_product storeOne 1).2 1).1 = 404) := by
  refine ⟨⟨by decide, (delete_semantics storeOne 7).1 (by decide)⟩, ?_⟩
  have h := (delete_semantics storeOne 1).2 ⟨p1, by decide, rfl⟩
  exact ⟨⟨p1, by decide, rfl⟩, h⟩

/-- C9: every successfully created product is retrieved, identically, by
the id field of its serialized form. -/
theorem create_serialize_retrieve_roundtrip (now : JValue) (s : Store)
    (payload : Payload) (s2 : Store) (p : Product)
    (hc : Product.create now s payload = .ok (s2, p))
    (sp : SerializedProduct) (hs : Product.serialized s2 p = some sp) :
    sp.id = p.id ∧ Product.retrieve s2 sp.id = .ok p := by
  obtain ⟨values, obj, _, _, _, _, hins⟩ := create_ok hc
  obtain ⟨hprod, -, -, hfresh, -, -, -⟩ := insertProduct_ok hins
  have hspid : sp.id = p.id := by
    unfold Product.serialized at hs
    cases hb : s2.brands.find? (fun b => b.id == p.brand_id) with
    | none => rw [hb] at hs; exact absurd hs (by simp)
    | some b =>
      rw [hb] at hs
      dsimp only [Option.map] at hs
      injection hs with hs
      rw [← hs]
  refine ⟨hspid, ?_⟩
  rw [hspid]
  unfold Product.retrieve
  have hone : s2.products.filter (fun q => q.id == p.id) = [p] := by
    rw [hprod, List.filter_append]
    have h1 : s.products.filter (fun q => q.id == p.id) = [] :=
      List.filter_eq_nil_iff.mpr (fun q hq => by simpa using hfresh q hq)
    rw [h1]
    simp
  rw [hone]

/-- Witness for C9: the product created from `payloadBlankBrand` is
retrieved by the id of its serialized form. -/
theorem create_serialize_retrieve_roundtrip_witness :
    Product.create (JValue.int 0) storeEmpty payloadBlankBrand
      = .ok (⟨[pBlank], [brand1], [cat1]⟩, pBlank) ∧
    (∃ sp, Product.serialized ⟨[pBlank], [brand1], [cat1]⟩ pBlank = some sp ∧
      sp.id = pBlank.id ∧
      Product.retrieve (⟨[pBlank], [brand1], [cat1]⟩ : Store) sp.id = .ok pBlank) := by
  refine ⟨rfl, ?_⟩
  cases hs : Product.serialized ⟨[pBlank], [brand1], [cat1]⟩ pBlank with
  | none => exact absurd hs (by decide)
  | some sp =>
    have h := create_serialize_retrieve_roundtrip (JValue.int 0) storeEmpty
      payloadBlankBrand ⟨[pBlank], [brand1], [cat1]⟩ pBlank rfl sp hs
    exact ⟨sp, rfl, h.1, h.2⟩

/-- C10: with a truthy brand_id column in the payload and no brand key,
prepare_values copies the brand_id through unchecked, satisfying the
brand-required test of create without any brand-name lookup; concretely, a
record is created in a store containing no brand at all, with a brand_id
that was never resolved from a Brand name. -/
theorem brand_id_passthrough (s : Store) (payload : Payload) (w : JValue)
    (hb : dictGet payload "brand" = none)
    (hid : dictGet payload "brand_id" = some w) (ht : w.truthy = true) :
    (∀ v, Product.prepare_values s payload = .ok v →
        dictGet v.cols "brand_id" = some w ∧ w.truthy = true) ∧
    (Product.create (JValue.int 0) storeNoBrands payloadRawBrandId
        = .ok (⟨[pRaw], [], [cat1]⟩, pRaw) ∧
     storeNoBrands.brands = [] ∧ pRaw.brand_id = 7) := by
  constructor
  · intro v hv
    obtain ⟨cols, names, resolved, hbs, hcn, hrc, hveq⟩ := prepare_values_ok hv
    have hcols : cols = payload.filter (fun kv => productColumns.contains kv.1) := by
      unfold brandStep at hbs
      rw [hb] at hbs
      injection hbs with hbs
      exact hbs.symm
    rw [hveq]
    dsimp only
    rw [hcols]
    rw [dictGet_filter_columns (by decide)]
    exact ⟨hid, ht⟩
  · exact ⟨rfl, rfl, rfl⟩

/-- Witness for C10 at the concrete brand-free payload. -/
theorem brand_id_passthrough_witness :
    (JValue.int 7).truthy = true ∧
    dictGet payloadRawBrandId "brand" = none ∧
    (∀ v, Product.prepare_values storeNoBrands payloadRawBrandId = .ok v →
        dictGet v.cols "brand_id" = some (JValue.int 7) ∧
        (JValue.int 7).truthy = true) := by
  have h := brand_id_passthrough storeNoBrands payloadRawBrandId
      (JValue.int 7) rfl rfl rfl
  exact ⟨rfl, rfl, h.1⟩

end ProductsApp
